import Mathlib

/-!
Verification of the pathfinding / coordinate-mapping core of the
AquaductBridge-ExileAPI repository.

The definitions below are a shallow embedding of the Python source:

* `intelligent_pathfinding.py` (deploy package): `Position.distance_to`,
  `ZoneAnalyzer.find_zone_exits`, `ZoneAnalyzer.find_optimal_exit`,
  `TerrainAnalyzer` (parsing, `is_walkable`, `get_neighbors`),
  `IntelligentPathfinder` (`create_intelligent_path`, `_find_path_astar`,
  `_create_direct_path`, `_create_exploration_path`);
* `pathfinding.py`: `TerrainGrid` (parsing, `is_walkable`, `get_neighbors`,
  `get_movement_cost`) and `PathfindingEngine.find_path`;
* `coordinate_fix.py` (both the deploy variant with inversion flags and the
  plain variant): `convert_grid_to_screen`, `is_valid_screen_position`,
  `get_screen_center`, `get_entity_click_position`, `set_game_window`.

Modelling conventions:
* Python machine floats appear only as (a) Euclidean distances used in
  strict comparisons against the integer thresholds 5, 10 and 20 — these
  comparisons are exact on squared integer distances because float sqrt is
  correctly rounded, so they are embedded as integer comparisons of the
  squared distance against 25, 100 and 400; (b) A* path costs, embedded as
  an abstract cost function `d : GPos → GPos → ℚ` (every theorem below is
  proved for every `d`, hence also for the float costs of the source);
  (c) the 1.5 multiplier of the coordinate conversion, embedded exactly as
  integer arithmetic on half-units.
* Python `int(x)` truncates toward zero: embedded as `Int.tdiv` on exact
  rationals written with an explicit denominator, or as `pyInt` on `ℚ`.
* `heapq` pop order on float keys (with in-place mutation of queued nodes)
  is embedded as an abstract selector `pick` over the list of queued grid
  positions; every theorem is proved for every `pick`, hence also for the
  source's heap order.  Queued node objects are shared with the `nodes_dict`
  map, so the queue stores positions and the node store is keyed by
  position, which reproduces the source's aliasing of mutated costs.
* Parent back-references of `PathNode` are embedded by carrying, in each
  node, the start-to-node path it would reconstruct.
* The unbounded `while open_set:` loops are embedded with an explicit fuel
  parameter; every theorem quantifies over the fuel.
* Exceptions swallowed by `try/except` blocks (unparseable terrain, ragged
  row indexing) are embedded as the fallback value the handler returns.
  The `debug_overlay` reporting calls are pure logging without effect on
  the returned path and are omitted.
-/

/-- A grid position, as the `Position` dataclass of the source (value
equality on the integer coordinates). -/
structure GPos where
  x : Int
  y : Int
deriving DecidableEq

/-- Squared Euclidean distance.  `Position.distance_to` returns
`sqrt(distSq)`; every comparison of a distance against an integer bound `b`
in the source is embedded as `distSq < b*b`, which is exact. -/
def distSq (p q : GPos) : Int :=
  (p.x - q.x) * (p.x - q.x) + (p.y - q.y) * (p.y - q.y)

/-- The whitespace characters recognised by Python's `str.strip` / `str.split`
on ASCII text (space, tab, newline, carriage return, vertical tab, form feed). -/
def isPySpace (c : Char) : Bool :=
  c = ' ' || c = '\t' || c = '\n' || c = '\r' || c = Char.ofNat 11 || c = Char.ofNat 12

/-- Python `str.strip()` on a character list. -/
def stripChars (l : List Char) : List Char :=
  ((l.dropWhile isPySpace).reverse.dropWhile isPySpace).reverse

/-- Python `str.split('\n')`: splitting on every newline, keeping empty
pieces (so the empty string yields one empty piece). -/
def splitOnNl : List Char → List (List Char)
  | [] => [[]]
  | c :: cs =>
    let r := splitOnNl cs
    if c = '\n' then [] :: r
    else
      match r with
      | [] => [[c]]
      | h :: t => (c :: h) :: t

/-- Helper for `splitWs`: accumulates the current token (reversed). -/
def splitWsAux (acc : List Char) : List Char → List (List Char)
  | [] => if acc.isEmpty then [] else [acc.reverse]
  | c :: cs =>
    if isPySpace c then
      if acc.isEmpty then splitWsAux [] cs else acc.reverse :: splitWsAux [] cs
    else splitWsAux (c :: acc) cs

/-- Python `str.split()` with no argument: split on runs of whitespace,
dropping empty tokens. -/
def splitWs (l : List Char) : List (List Char) :=
  splitWsAux [] l

/-- Digits (with Python's optional single `_` separators between digits) to
a value; `none` on any malformed input, as `int(...)` raising `ValueError`. -/
def digitsRest (acc : Nat) : List Char → Option Nat
  | [] => some acc
  | '_' :: c :: cs =>
    if c.isDigit then digitsRest (acc * 10 + (c.toNat - 48)) cs else none
  | c :: cs =>
    if c.isDigit then digitsRest (acc * 10 + (c.toNat - 48)) cs else none

/-- First character of the digit part: must be a digit. -/
def digitsStart : List Char → Option Nat
  | [] => none
  | c :: cs => if c.isDigit then digitsRest (c.toNat - 48) cs else none

/-- Python `int(token)` on an ASCII token with optional sign, as applied to
the whitespace-free tokens produced by `str.split()`. -/
def pyParseInt (s : List Char) : Option Int :=
  match s with
  | '+' :: rest => (digitsStart rest).map (fun n => (n : Int))
  | '-' :: rest => (digitsStart rest).map (fun n => -(n : Int))
  | _ => (digitsStart s).map (fun n => (n : Int))

/-- `[int(x) for x in tokens]`: all tokens must parse. -/
def tokensToInts (toks : List (List Char)) : Option (List Int) :=
  toks.mapM pyParseInt

/-- Row parsing of `TerrainAnalyzer._parse_terrain_string`: strip each line,
skip blank lines, parse the rest; any parse failure aborts the whole parse
(the `except` handler of the source then yields the empty grid). -/
def taParseLines : List (List Char) → Option (List (List Int))
  | [] => some []
  | l :: ls =>
    let stripped := stripChars l
    if stripped.isEmpty then taParseLines ls
    else
      match tokensToInts (splitWs stripped), taParseLines ls with
      | some row, some rest => some (row :: rest)
      | _, _ => none

/-- `TerrainAnalyzer._parse_terrain_string`: empty/blank input and any parse
error yield the empty grid. -/
def taParse (terrain : String) : List (List Int) :=
  let stripped := stripChars terrain.data
  if stripped.isEmpty then []
  else
    match taParseLines (splitOnNl stripped) with
    | some g => g
    | none => []

/-- `TerrainGrid._parse_terrain_string` of `pathfinding.py`: no per-line
stripping and no blank-line skipping (a blank line becomes an empty row);
empty input or any parse error yields the empty grid. -/
def tgParse (terrain : String) : List (List Int) :=
  if terrain.data.isEmpty then []
  else
    match (splitOnNl (stripChars terrain.data)).mapM (fun l => tokensToInts (splitWs l)) with
    | some g => g
    | none => []

/-- `width = len(grid[0]) if grid else 0`. -/
def gridWidth (g : List (List Int)) : Nat :=
  match g with
  | [] => 0
  | r :: _ => r.length

/-- `height = len(grid)`. -/
def gridHeight (g : List (List Int)) : Nat :=
  g.length

/-- `is_valid_position`: `0 <= x < width and 0 <= y < height` (identical in
both implementations). -/
def isValidPosition (g : List (List Int)) (x y : Int) : Bool :=
  decide (0 ≤ x ∧ x < (gridWidth g : Int) ∧ 0 ≤ y ∧ y < (gridHeight g : Int))

/-- `grid[y][x]` for nonnegative indices; `none` models the `IndexError`
raised on a ragged row (caught by the source and turned into `False`). -/
def cellAt (g : List (List Int)) (x y : Int) : Option Int :=
  match g[y.toNat]? with
  | some row => row[x.toNat]?
  | none => none

/-- `TerrainGrid.is_walkable` of `pathfinding.py`: in bounds and
`terrain_value == 51`; any indexing error yields `False`. -/
def tgIsWalkable (g : List (List Int)) (x y : Int) : Bool :=
  if isValidPosition g x y then
    match cellAt g x y with
    | some v => decide (v = 51)
    | none => false
  else false

/-- `TerrainAnalyzer.is_walkable` of `intelligent_pathfinding.py`: in bounds
and `terrain_value >= 50`; any indexing error yields `False`. -/
def taIsWalkable (g : List (List Int)) (x y : Int) : Bool :=
  if isValidPosition g x y then
    match cellAt g x y with
    | some v => decide (50 ≤ v)
    | none => false
  else false

/-- The eight compass directions, in source order. -/
def nbrDirs : List (Int × Int) :=
  [(-1, -1), (-1, 0), (-1, 1), (0, -1), (0, 1), (1, -1), (1, 0), (1, 1)]

/-- `TerrainAnalyzer.get_neighbors`: the walkable 8-neighbours. -/
def taNeighbors (g : List (List Int)) (p : GPos) : List GPos :=
  nbrDirs.filterMap (fun dxy =>
    let nx := p.x + dxy.1
    let ny := p.y + dxy.2
    if taIsWalkable g nx ny then some ⟨nx, ny⟩ else none)

/-- `TerrainGrid.get_neighbors`: the walkable 8-neighbours (with the `== 51`
walkability rule). -/
def tgNeighbors (g : List (List Int)) (p : GPos) : List GPos :=
  nbrDirs.filterMap (fun dxy =>
    let nx := p.x + dxy.1
    let ny := p.y + dxy.2
    if tgIsWalkable g nx ny then some ⟨nx, ny⟩ else none)

/-- An entity record as consumed by the core: `Path` (default `''`),
`EntityType` (default `0`), `GridPosition` (a missing or empty dict is
`none`; a present dict is `some` of its `X`/`Y` values with default `0`),
and the untrusted screen position, which the embedded functions never read
(mirroring the source, which never reads it). -/
structure Entity where
  path : List Char
  entityType : Int
  gridPos : Option GPos
  screenPos : Option GPos
deriving DecidableEq

/-- Python `str.lower()` on ASCII letters (entity path strings are ASCII). -/
def asciiLower (c : Char) : Char :=
  if 'A' ≤ c ∧ c ≤ 'Z' then Char.ofNat (c.toNat + 32) else c

/-- Lower-case a character list. -/
def lowerChars (l : List Char) : List Char :=
  l.map asciiLower

/-- Whether `needle` starts `hay`. -/
def leadsChars : List Char → List Char → Bool
  | [], _ => true
  | _ :: _, [] => false
  | a :: as, b :: bs => a == b && leadsChars as bs

/-- Python's `needle in hay` substring test. -/
def occursIn (needle : List Char) : List Char → Bool
  | [] => leadsChars needle []
  | c :: cs => leadsChars needle (c :: cs) || occursIn needle cs

/-- The keyword set of `ZoneAnalyzer.find_zone_exits`. -/
def exitKeywords : List (List Char) :=
  ["door".data, "exit".data, "waypoint".data, "portal".data, "transition".data,
   "areatransition".data, "zoneexit".data, "staircase".data, "ladder".data]

/-- `any(keyword in path for keyword in [...])` on the lower-cased path. -/
def matchesExitKeyword (p : List Char) : Bool :=
  exitKeywords.any (fun kw => occursIn kw (lowerChars p))

/-- The candidate collection loop of `ZoneAnalyzer.find_zone_exits`: a
keyword match appends the grid position, and independently an entity type
in `[1, 2, 3]` appends it again. -/
def exitCandidates (entities : List Entity) : List GPos :=
  entities.foldl (fun acc e =>
    let acc1 :=
      if matchesExitKeyword e.path then
        match e.gridPos with
        | some gp => acc ++ [gp]
        | none => acc
      else acc
    if e.entityType = 1 ∨ e.entityType = 2 ∨ e.entityType = 3 then
      match e.gridPos with
      | some gp => acc1 ++ [gp]
      | none => acc1
    else acc1) []

/-- The deduplication loop of `ZoneAnalyzer.find_zone_exits`: keep a
candidate only if no already-kept exit is at distance `< 10` (squared
distance `< 100`). -/
def dedupExits (l : List GPos) : List GPos :=
  l.foldl (fun uniq ex =>
    if uniq.any (fun u => distSq u ex < 100) then uniq else uniq ++ [ex]) []

/-- `ZoneAnalyzer.find_zone_exits`. -/
def findZoneExits (entities : List Entity) : List GPos :=
  dedupExits (exitCandidates entities)

/-- The looser keyword set of the extended search inside
`create_intelligent_path`. -/
def extendedKeywords : List (List Char) :=
  ["waypoint".data, "teleport".data, "portal".data, "transition".data]

/-- The extended exit search of `create_intelligent_path` (no type-code
check, no deduplication). -/
def extendedExitSearch (entities : List Entity) : List GPos :=
  entities.foldl (fun acc e =>
    if extendedKeywords.any (fun kw => occursIn kw (lowerChars e.path)) then
      match e.gridPos with
      | some gp => acc ++ [gp]
      | none => acc
    else acc) []

/-- `ZoneAnalyzer.find_optimal_exit`: `min(exits, key=distance)` — the first
exit of minimal distance to the player; `none` on an empty list.  Distance
comparison is embedded on squared distances, which matches the float
comparison of the source. -/
def findOptimalExit (p : GPos) (exits : List GPos) : Option GPos :=
  exits.foldl (fun acc e =>
    match acc with
    | none => some e
    | some b => if distSq e p < distSq b p then some e else acc) none

/-- Binary search kernel for the integer square root: maintains
`lo*lo ≤ n < hi*hi`. -/
def sqrtBin (n : Nat) : Nat → Nat → Nat → Nat
  | 0, lo, _ => lo
  | f + 1, lo, hi =>
    if hi ≤ lo + 1 then lo
    else
      let mid := (lo + hi) / 2
      if mid * mid ≤ n then sqrtBin n f mid hi else sqrtBin n f lo mid

/-- Integer square root (kernel-evaluable; proved equal to `Nat.sqrt`
below).  `isqrt (distSq s g)` is the floor of the float distance
`start.distance_to(goal)` of the source. -/
def isqrt (n : Nat) : Nat :=
  sqrtBin n (n + 2) 0 (n + 1)


/-- The mutable bookkeeping record of a `PathNode`: cost from start, heuristic
cost, and the start-to-node path its parent chain reconstructs. -/
structure NodeData where
  g : ℚ
  h : ℚ
  path : List GPos

/-- Lookup in the position-keyed node store (`nodes_dict`). -/
def storeFind (store : List (GPos × NodeData)) (p : GPos) : Option NodeData :=
  (store.find? (fun e => e.1 == p)).map (fun e => e.2)

/-- In-place mutation of the node stored for `p` (`existing_node.g_cost = ...`,
`existing_node.parent = ...`). -/
def storeSet (store : List (GPos × NodeData)) (p : GPos) (nd : NodeData) :
    List (GPos × NodeData) :=
  store.map (fun e => if e.1 == p then (p, nd) else e)

/-- One neighbour step of `_find_path_astar`: skip closed positions; a new
position is recorded and queued; a known position is updated and re-queued
when the new cost is strictly smaller. -/
def expandNeighbor (d : GPos → GPos → ℚ) (goal curPos : GPos) (curNd : NodeData)
    (closed : List GPos) (acc : List GPos × List (GPos × NodeData)) (npos : GPos) :
    List GPos × List (GPos × NodeData) :=
  if closed.contains npos then acc
  else
    let gq := curNd.g + d curPos npos
    match storeFind acc.2 npos with
    | none =>
      (acc.1 ++ [npos], acc.2 ++ [(npos, ⟨gq, d npos goal, curNd.path ++ [npos]⟩)])
    | some ex =>
      if gq < ex.g then
        (acc.1 ++ [npos], storeSet acc.2 npos ⟨gq, ex.h, curNd.path ++ [npos]⟩)
      else acc

/-- Outcome of an A* run: the reconstructed path (if any) and the sequence of
popped positions. -/
structure AStarRun where
  result : Option (List GPos)
  popped : List GPos

/-- The `while open_set:` loop of `_find_path_astar`.  A pop within distance
5 of the goal (squared distance `< 25`) returns the reconstruction; an
exhausted queue returns no path.  `pick` abstracts the heap pop, `fuel`
bounds the iterations (the store lookup of a queued position never fails,
and its `none` branch is unreachable). -/
def astarLoop (d : GPos → GPos → ℚ) (pick : List GPos → Option (GPos × List GPos))
    (grid : List (List Int)) (goal : GPos) :
    Nat → List GPos → List GPos → List (GPos × NodeData) → AStarRun
  | 0, _, _, _ => ⟨none, []⟩
  | fuel + 1, opn, closed, store =>
    match pick opn with
    | none => ⟨none, []⟩
    | some (cur, opnRest) =>
      match storeFind store cur with
      | none => ⟨none, []⟩
      | some nd =>
        if distSq cur goal < 25 then ⟨some nd.path, [cur]⟩
        else
          let closed' := cur :: closed
          let st' := (taNeighbors grid cur).foldl (expandNeighbor d goal cur nd closed')
            (opnRest, store)
          let r := astarLoop d pick grid goal fuel st'.1 closed' st'.2
          ⟨r.result, cur :: r.popped⟩

/-- `IntelligentPathfinder._find_path_astar`: start node with `g = 0` and
`h = start.distance_to(goal)`, then the search loop. -/
def findAstar (d : GPos → GPos → ℚ) (pick : List GPos → Option (GPos × List GPos))
    (fuel : Nat) (grid : List (List Int)) (s goal : GPos) : AStarRun :=
  astarLoop d pick grid goal fuel [s] [] [(s, ⟨0, d s goal, [s]⟩)]

/-- `IntelligentPathfinder._create_direct_path`.  For distance `< 20`
(squared `< 400`) a single waypoint at the goal; otherwise
`max(2, int(distance / 15))` waypoints.  The `i`-th waypoint of the source is
`int(start + (goal - start) * (i / num))`, which on exact rationals is the
truncated quotient below (the float arithmetic of the source computes the
same integers away from exact-integer boundaries). -/
def directPath (s g : GPos) : List GPos :=
  let d2 := distSq s g
  if d2 < 400 then [g]
  else
    let num : Nat := max 2 (isqrt d2.toNat / 15)
    (List.range num).map (fun (i : Nat) =>
      ⟨(s.x * (num : Int) + (g.x - s.x) * ((i : Int) + 1)).tdiv (num : Int),
       (s.y * (num : Int) + (g.y - s.y) * ((i : Int) + 1)).tdiv (num : Int)⟩)

/-- `IntelligentPathfinder._create_exploration_path`: the fixed twelve
waypoints relative to the start. -/
def explorationPath (sx sy : Int) : List GPos :=
  [⟨sx + 60, sy⟩, ⟨sx + 120, sy⟩, ⟨sx + 180, sy⟩,
   ⟨sx + 180, sy + 60⟩, ⟨sx + 120, sy + 60⟩, ⟨sx + 60, sy + 60⟩,
   ⟨sx + 60, sy - 60⟩, ⟨sx + 120, sy - 60⟩, ⟨sx + 180, sy - 60⟩,
   ⟨sx + 240, sy⟩, ⟨sx + 300, sy⟩, ⟨sx + 360, sy⟩]

/-- The exit list `create_intelligent_path` ends up using: the primary
`find_zone_exits` result, or on its emptiness the extended search result. -/
def usedExits (entities : List Entity) : List GPos :=
  let e0 := findZoneExits entities
  if e0.isEmpty then extendedExitSearch entities else e0

/-- `IntelligentPathfinder.create_intelligent_path` for a start record with
integer `X`/`Y` fields.  Cascade: no exits (even extended) ⇒ exploration
pattern; no optimal exit ⇒ exploration pattern (unreachable for a non-empty
exit list); empty terrain grid ⇒ direct path; A* success ⇒ its waypoints
(the emptiness test mirrors the source's truthiness test `if path:`); A*
failure ⇒ direct path. -/
def createIntelligentPath (d : GPos → GPos → ℚ)
    (pick : List GPos → Option (GPos × List GPos)) (fuel : Nat)
    (sx sy : Int) (terrain : String) (entities : List Entity) : List GPos :=
  let grid := taParse terrain
  let s : GPos := ⟨sx, sy⟩
  let exits := usedExits entities
  if exits.isEmpty then explorationPath sx sy
  else
    match findOptimalExit s exits with
    | none => explorationPath sx sy
    | some t =>
      if grid.isEmpty then directPath s t
      else
        match (findAstar d pick fuel grid s t).result with
        | some p => if p.isEmpty then directPath s t else p
        | none => directPath s t

/-- `TerrainGrid.get_movement_cost`: `1.414` for a diagonal step, `1.0`
otherwise. -/
def movementCost (p q : GPos) : ℚ :=
  if (q.x - p.x).natAbs = 1 ∧ (q.y - p.y).natAbs = 1 then mkRat 1414 1000 else 1

/-- One neighbour step of `PathfindingEngine.find_path`: as `expandNeighbor`
but with the concrete movement cost and, on a cost improvement of a known
node, an in-place update without re-queueing (the source has no second
`heappush`). -/
def expandNeighborFP (d : GPos → GPos → ℚ) (goal curPos : GPos) (curNd : NodeData)
    (closed : List GPos) (acc : List GPos × List (GPos × NodeData)) (npos : GPos) :
    List GPos × List (GPos × NodeData) :=
  if closed.contains npos then acc
  else
    let gq := curNd.g + movementCost curPos npos
    match storeFind acc.2 npos with
    | none =>
      (acc.1 ++ [npos], acc.2 ++ [(npos, ⟨gq, d npos goal, curNd.path ++ [npos]⟩)])
    | some ex =>
      if gq < ex.g then
        (acc.1, storeSet acc.2 npos ⟨gq, ex.h, curNd.path ++ [npos]⟩)
      else acc

/-- The `while open_set:` loop of `PathfindingEngine.find_path`: the goal
test is exact equality `current_pos == end`. -/
def findPathLoop (d : GPos → GPos → ℚ) (pick : List GPos → Option (GPos × List GPos))
    (grid : List (List Int)) (goal : GPos) :
    Nat → List GPos → List GPos → List (GPos × NodeData) → AStarRun
  | 0, _, _, _ => ⟨none, []⟩
  | fuel + 1, opn, closed, store =>
    match pick opn with
    | none => ⟨none, []⟩
    | some (cur, opnRest) =>
      match storeFind store cur with
      | none => ⟨none, []⟩
      | some nd =>
        if cur = goal then ⟨some nd.path, [cur]⟩
        else
          let closed' := cur :: closed
          let st' := (tgNeighbors grid cur).foldl (expandNeighborFP d goal cur nd closed')
            (opnRest, store)
          let r := findPathLoop d pick grid goal fuel st'.1 closed' st'.2
          ⟨r.result, cur :: r.popped⟩

/-- `PathfindingEngine.find_path`: unwalkable start or end returns no path
(the source returns `[]`), otherwise the search loop from the start node. -/
def findPath (d : GPos → GPos → ℚ) (pick : List GPos → Option (GPos × List GPos))
    (fuel : Nat) (grid : List (List Int)) (s e : GPos) : AStarRun :=
  if tgIsWalkable grid s.x s.y then
    if tgIsWalkable grid e.x e.y then
      findPathLoop d pick grid e fuel [s] [] [(s, ⟨0, d s e, [s]⟩)]
    else ⟨none, []⟩
  else ⟨none, []⟩

/-- A concrete selector (used only to instantiate witness runs): pop the
head of the queue. -/
def pickFirst : List GPos → Option (GPos × List GPos)
  | [] => none
  | p :: ps => some (p, ps)

/-- A concrete cost function (used only to instantiate witness runs). -/
def dZero : GPos → GPos → ℚ := fun _ _ => 0


/-- The game window information actually read by the source
(`window_info.get('Width', 1920)` / `.get('Height', 1080)` resolved). -/
structure Window where
  width : Int
  height : Int
deriving DecidableEq

/-- Python `int(q)`: truncation toward zero. -/
def pyInt (q : ℚ) : Int :=
  if q < 0 then ⌈q⌉ else ⌊q⌋

/-- The calibration state of the deploy `CoordinateFix`: optional window,
scale, and the three inversion/swap flags. -/
structure CoordState where
  gameWindow : Option Window
  gridToScreenScale : ℚ
  invertX : Bool
  invertY : Bool
  swapXY : Bool

/-- The state `CoordinateFix.__init__` creates: no window, scale `1.0`,
`invert_x = False`, `invert_y = True`, `swap_xy = False`. -/
def initCoordState : CoordState :=
  ⟨none, 1, false, true, false⟩

/-- `CoordinateFix.set_game_window`: records the window and recomputes the
scale as `min(width / 1000, height / 1000)`. -/
def setGameWindow (st : CoordState) (w : Window) : CoordState :=
  { st with gameWindow := some w,
            gridToScreenScale := min ((w.width : ℚ) / 1000) ((w.height : ℚ) / 1000) }

/-- `CoordinateFix.convert_grid_to_screen` of the deploy variant.
Without a window: offsets `(grid - (500, 300)) * 1.5` from center
`(960, 540)`, written exactly in half-units so that `int(960 + 1.5*k)`
becomes `(1920 + 3*k).tdiv 2`; inversion flags negate an offset, `swap_xy`
exchanges the two offsets; the result is clamped into
`[100, 1820] × [100, 980]`.  With a window: offsets `grid * scale` from the
window center (`//` is `Int.fdiv`), clamped with a 50-pixel margin. -/
def convertGridToScreen (st : CoordState) (gx gy : Int) : Int × Int :=
  match st.gameWindow with
  | none =>
    let hx0 : Int := 3 * (gx - 500)
    let hy0 : Int := 3 * (gy - 300)
    let hx1 := if st.invertX then -hx0 else hx0
    let hy1 := if st.invertY then -hy0 else hy0
    let hx2 := if st.swapXY then hy1 else hx1
    let hy2 := if st.swapXY then hx1 else hy1
    let sx := (1920 + hx2).tdiv 2
    let sy := (1080 + hy2).tdiv 2
    (max 100 (min sx 1820), max 100 (min sy 980))
  | some w =>
    let cx : Int := w.width.fdiv 2
    let cy : Int := w.height.fdiv 2
    let rx0 : ℚ := (gx : ℚ) * st.gridToScreenScale
    let ry0 : ℚ := (gy : ℚ) * st.gridToScreenScale
    let rx1 := if st.invertX then -rx0 else rx0
    let ry1 := if st.invertY then -ry0 else ry0
    let rx2 := if st.swapXY then ry1 else rx1
    let ry2 := if st.swapXY then rx1 else ry1
    let sx := pyInt ((cx : ℚ) + rx2)
    let sy := pyInt ((cy : ℚ) + ry2)
    (max 50 (min sx (w.width - 50)), max 50 (min sy (w.height - 50)))

/-- `is_valid_screen_position` (identical in both variants): rejects points
within 10 pixels of the top/left edge and points beyond the (assumed)
window bounds. -/
def isValidScreenPosition (w : Option Window) (x y : Int) : Bool :=
  if x < 10 ∨ y < 10 then false
  else
    match w with
    | none => decide (x ≤ 1920 ∧ y ≤ 1080)
    | some win => decide (x ≤ win.width - 10 ∧ y ≤ win.height - 10)

/-- `get_screen_center` (identical in both variants): `(960, 540)` without a
window, else the floor-halved window dimensions. -/
def getScreenCenter (w : Option Window) : Int × Int :=
  match w with
  | none => (960, 540)
  | some win => (win.width.fdiv 2, win.height.fdiv 2)

/-- `CoordinateFix.get_entity_click_position` of the deploy variant: always
converts the entity's grid position; a missing/empty grid position, or an
invalid converted point, yields the screen center (the untrusted screen
position field is never read). -/
def getEntityClickPosition (st : CoordState) (e : Entity) : Int × Int :=
  match e.gridPos with
  | some gp =>
    let s := convertGridToScreen st gp.x gp.y
    if isValidScreenPosition st.gameWindow s.1 s.2 then s
    else getScreenCenter st.gameWindow
  | none => getScreenCenter st.gameWindow

/-- The calibration state of the plain `coordinate_fix.py` variant (no
inversion flags). -/
structure PlainCoordState where
  gameWindow : Option Window
deriving DecidableEq

/-- `CoordinateFix.convert_grid_to_screen` of the plain variant: both
branches offset `(grid - (500, 300)) * 1.5` (window branch from the window
center with a 100-pixel clamp margin), written exactly in half-units. -/
def plainConvertGridToScreen (st : PlainCoordState) (gx gy : Int) : Int × Int :=
  match st.gameWindow with
  | none =>
    let sx := (1920 + 3 * (gx - 500)).tdiv 2
    let sy := (1080 + 3 * (gy - 300)).tdiv 2
    (max 100 (min sx 1820), max 100 (min sy 980))
  | some w =>
    let cx : Int := w.width.fdiv 2
    let cy : Int := w.height.fdiv 2
    let sx := (2 * cx + 3 * (gx - 500)).tdiv 2
    let sy := (2 * cy + 3 * (gy - 300)).tdiv 2
    (max 100 (min sx (w.width - 100)), max 100 (min sy (w.height - 100)))

/-- `get_entity_click_position` of the plain variant (same shape as the
deploy one). -/
def plainGetEntityClickPosition (st : PlainCoordState) (e : Entity) : Int × Int :=
  match e.gridPos with
  | some gp =>
    let s := plainConvertGridToScreen st gp.x gp.y
    if isValidScreenPosition st.gameWindow s.1 s.2 then s
    else getScreenCenter st.gameWindow
  | none => getScreenCenter st.gameWindow


/-- The binary search of `sqrtBin` is correct under its invariant. -/
theorem sqrtBin_spec (n : Nat) :
    ∀ fuel lo hi, lo * lo ≤ n → n < hi * hi → lo < hi → hi - lo ≤ fuel →
      sqrtBin n fuel lo hi * sqrtBin n fuel lo hi ≤ n ∧
        n < (sqrtBin n fuel lo hi + 1) * (sqrtBin n fuel lo hi + 1) := by
  intro fuel
  induction fuel with
  | zero => intro lo hi _ _ hlt hf; omega
  | succ f ih =>
    intro lo hi hlo hhi hlt hf
    simp only [sqrtBin]
    by_cases hstep : hi ≤ lo + 1
    · have h2 : hi * hi ≤ (lo + 1) * (lo + 1) := Nat.mul_le_mul hstep hstep
      simp only [if_pos hstep]
      exact ⟨hlo, lt_of_lt_of_le hhi h2⟩
    · simp only [if_neg hstep]
      by_cases hmid : ((lo + hi) / 2) * ((lo + hi) / 2) ≤ n
      · simp only [if_pos hmid]
        exact ih ((lo + hi) / 2) hi hmid hhi (by omega) (by omega)
      · simp only [if_neg hmid]
        exact ih lo ((lo + hi) / 2) hlo (by omega) (by omega) (by omega)

/-- `isqrt` computes the integer square root. -/
theorem isqrt_spec (n : Nat) :
    isqrt n * isqrt n ≤ n ∧ n < (isqrt n + 1) * (isqrt n + 1) := by
  refine sqrtBin_spec n (n + 2) 0 (n + 1) (by simp) (by nlinarith) (by omega) (by omega)

/-- `isqrt` agrees with `Nat.sqrt`. -/
theorem isqrt_eq_sqrt (n : Nat) : isqrt n = Nat.sqrt n := by
  have h := isqrt_spec n
  have h1 : isqrt n ≤ Nat.sqrt n := Nat.le_sqrt.mpr h.1
  have h2 : Nat.sqrt n < isqrt n + 1 := Nat.sqrt_lt.mpr h.2
  omega

/-- Squared distance is symmetric. -/
theorem distSq_comm (p q : GPos) : distSq p q = distSq q p := by
  unfold distSq; ring

/-- Truncating division by 2 is monotone (Python `int()` of a half-integer). -/
theorem tdiv_two_mono {a b : Int} (h : a ≤ b) : a.tdiv 2 ≤ b.tdiv 2 := by
  rcases le_or_lt 0 a with ha | ha
  · rw [Int.tdiv_eq_ediv ha (by norm_num), Int.tdiv_eq_ediv (le_trans ha h) (by norm_num)]
    exact Int.ediv_le_ediv (by norm_num) h
  · rcases le_or_lt 0 b with hb | hb
    · have hna : a.tdiv 2 = -((-a).tdiv 2) := by
        rw [← Int.neg_tdiv, neg_neg]
      have h1 : 0 ≤ (-a).tdiv 2 := by
        rw [Int.tdiv_eq_ediv (by omega) (by norm_num)]
        exact Int.ediv_nonneg (by omega) (by norm_num)
      have h2 : 0 ≤ b.tdiv 2 := by
        rw [Int.tdiv_eq_ediv hb (by norm_num)]
        exact Int.ediv_nonneg hb (by norm_num)
      omega
    · have hna : a.tdiv 2 = -((-a).tdiv 2) := by rw [← Int.neg_tdiv, neg_neg]
      have hnb : b.tdiv 2 = -((-b).tdiv 2) := by rw [← Int.neg_tdiv, neg_neg]
      have h1 : (-b).tdiv 2 ≤ (-a).tdiv 2 := by
        rw [Int.tdiv_eq_ediv (by omega) (by norm_num), Int.tdiv_eq_ediv (by omega) (by norm_num)]
        exact Int.ediv_le_ediv (by norm_num) (by omega)
      omega

/-- Truncation toward zero on `ℚ` is monotone. -/
theorem pyInt_mono {a b : ℚ} (h : a ≤ b) : pyInt a ≤ pyInt b := by
  unfold pyInt
  by_cases ha : a < 0
  · by_cases hb : b < 0
    · simp only [if_pos ha, if_pos hb]
      exact Int.ceil_mono h
    · simp only [if_pos ha, if_neg hb]
      have h1 : ⌈a⌉ ≤ 0 := Int.ceil_le.mpr (by exact_mod_cast le_of_lt ha)
      have h2 : (0 : Int) ≤ ⌊b⌋ := Int.floor_nonneg.mpr (not_lt.mp hb)
      omega
  · have hb : ¬b < 0 := fun hb => ha (lt_of_le_of_lt h hb)
    simp only [if_neg ha, if_neg hb]
    exact Int.floor_mono h

/-- Clamping `max a (min s b)` is monotone in `s`. -/
theorem clamp_mono {a b s t : Int} (h : s ≤ t) :
    max a (min s b) ≤ max a (min t b) :=
  max_le_max le_rfl (min_le_min h le_rfl)

/-- Wellformedness of a node's carried path: nonempty, starting at the
start position and ending at the node's position. -/
def pathWF (start p : GPos) (nd : NodeData) : Prop :=
  nd.path ≠ [] ∧ nd.path.head? = some start ∧ nd.path.getLast? = some p

/-- Wellformedness of every node in the store. -/
def storeWF (start : GPos) (store : List (GPos × NodeData)) : Prop :=
  ∀ e ∈ store, pathWF start e.1 e.2

/-- A successful store lookup returns a wellformed node. -/
theorem storeFind_wf {start : GPos} {store : List (GPos × NodeData)} {p : GPos}
    {nd : NodeData} (hwf : storeWF start store) (h : storeFind store p = some nd) :
    pathWF start p nd := by
  unfold storeFind at h
  rw [Option.map_eq_some'] at h
  obtain ⟨e, he, hnd⟩ := h
  have hp : e.1 = p := by
    have := List.find?_some he
    simpa using this
  have hmem := List.mem_of_find?_eq_some he
  have := hwf e hmem
  rw [hp, hnd] at this
  exact this

/-- The head of an append with a nonempty left part. -/
theorem head?_append_left {α : Type} {l l' : List α} (h : l ≠ []) :
    (l ++ l').head? = l.head? := by
  cases l with
  | nil => exact absurd rfl h
  | cons a as => rfl

/-- Extending a wellformed path by one position keeps it wellformed. -/
theorem pathWF_extend {start p : GPos} {nd : NodeData} (h : pathWF start p nd)
    (q : GPos) (gq hq : ℚ) : pathWF start q ⟨gq, hq, nd.path ++ [q]⟩ := by
  refine ⟨by simp, ?_, ?_⟩
  · rw [head?_append_left h.1]
    exact h.2.1
  · exact List.getLast?_concat _

/-- `expandNeighbor` preserves store wellformedness. -/
theorem expandNeighbor_wf {start : GPos} (d : GPos → GPos → ℚ) (goal curPos : GPos)
    (curNd : NodeData) (closed : List GPos) (hcur : pathWF start curPos curNd)
    (acc : List GPos × List (GPos × NodeData)) (npos : GPos)
    (hwf : storeWF start acc.2) :
    storeWF start (expandNeighbor d goal curPos curNd closed acc npos).2 := by
  unfold expandNeighbor
  split
  · exact hwf
  · split
    · intro e he
      rcases List.mem_append.mp he with h1 | h2
      · exact hwf e h1
      · have he2 : e = (npos,
            ⟨curNd.g + d curPos npos, d npos goal, curNd.path ++ [npos]⟩) := by
          simpa using h2
        rw [he2]
        exact pathWF_extend hcur npos _ _
    · rename_i ex hex
      by_cases hg : curNd.g + d curPos npos < ex.g
      · simp only [if_pos hg]
        intro e he
        unfold storeSet at he
        rw [List.mem_map] at he
        obtain ⟨e0, he0, heq⟩ := he
        by_cases hk : e0.1 == npos
        · rw [if_pos hk] at heq
          rw [← heq]
          exact pathWF_extend hcur npos _ _
        · rw [if_neg hk] at heq
          rw [← heq]
          exact hwf e0 he0
      · simp only [if_neg hg]
        exact hwf

/-- The neighbour fold of the A* loop preserves store wellformedness. -/
theorem expandFold_wf {start : GPos} (d : GPos → GPos → ℚ) (goal curPos : GPos)
    (curNd : NodeData) (closed : List GPos) (hcur : pathWF start curPos curNd) :
    ∀ (nbrs : List GPos) (acc : List GPos × List (GPos × NodeData)),
      storeWF start acc.2 →
      storeWF start ((nbrs.foldl (expandNeighbor d goal curPos curNd closed) acc).2) := by
  intro nbrs
  induction nbrs with
  | nil => intro acc h; simpa using h
  | cons n ns ih =>
    intro acc h
    simp only [List.foldl_cons]
    exact ih _ (expandNeighbor_wf d goal curPos curNd closed hcur acc n h)

/-- The A* loop succeeds exactly when it pops a position within distance 5
of the goal (squared distance `< 25`). -/
theorem astarLoop_success_iff (d : GPos → GPos → ℚ)
    (pick : List GPos → Option (GPos × List GPos)) (grid : List (List Int))
    (goal : GPos) :
    ∀ (fuel : Nat) (opn closed : List GPos) (store : List (GPos × NodeData)),
      (astarLoop d pick grid goal fuel opn closed store).result.isSome = true ↔
        ∃ q ∈ (astarLoop d pick grid goal fuel opn closed store).popped,
          distSq q goal < 25 := by
  intro fuel
  induction fuel with
  | zero =>
    intro opn closed store
    simp [astarLoop]
  | succ f ih =>
    intro opn closed store
    simp only [astarLoop]
    cases hp : pick opn with
    | none => simp
    | some pr =>
      obtain ⟨cur, rest⟩ := pr
      dsimp only
      cases hs : storeFind store cur with
      | none => simp
      | some nd =>
        by_cases hg : distSq cur goal < 25
        · simp [hg]
        · simp only [if_neg hg]
          constructor
          · intro h
            obtain ⟨q, hq, hd⟩ := (ih _ _ _).mp h
            exact ⟨q, List.mem_cons_of_mem _ hq, hd⟩
          · intro h
            obtain ⟨q, hq, hd⟩ := h
            rcases List.mem_cons.mp hq with h1 | h2
            · rw [h1] at hd; exact absurd hd hg
            · exact (ih _ _ _).mpr ⟨q, h2, hd⟩

/-- Every path the A* loop returns is wellformed and ends within distance 5
of the goal. -/
theorem astarLoop_path_wf (d : GPos → GPos → ℚ)
    (pick : List GPos → Option (GPos × List GPos)) (grid : List (List Int))
    (goal start : GPos) :
    ∀ (fuel : Nat) (opn closed : List GPos) (store : List (GPos × NodeData)),
      storeWF start store →
      ∀ p, (astarLoop d pick grid goal fuel opn closed store).result = some p →
        p ≠ [] ∧ p.head? = some start ∧
          ∃ q, p.getLast? = some q ∧ distSq q goal < 25 := by
  intro fuel
  induction fuel with
  | zero =>
    intro opn closed store _ p hp
    simp [astarLoop] at hp
  | succ f ih =>
    intro opn closed store hwf p hp
    simp only [astarLoop] at hp
    cases hpk : pick opn with
    | none => rw [hpk] at hp; simp at hp
    | some pr =>
      obtain ⟨cur, rest⟩ := pr
      rw [hpk] at hp
      dsimp only at hp
      cases hs : storeFind store cur with
      | none => rw [hs] at hp; simp at hp
      | some nd =>
        rw [hs] at hp
        dsimp only at hp
        have hndwf : pathWF start cur nd := storeFind_wf hwf hs
        by_cases hg : distSq cur goal < 25
        · rw [if_pos hg] at hp
          simp only [Option.some.injEq] at hp
          subst hp
          exact ⟨hndwf.1, hndwf.2.1, cur, hndwf.2.2, hg⟩
        · rw [if_neg hg] at hp
          refine ih _ _ _ ?_ p hp
          exact expandFold_wf d goal cur nd (cur :: closed) hndwf _ _ hwf

/-- Short distances yield the single goal waypoint. -/
theorem directPath_short {s g : GPos} (h : distSq s g < 400) :
    directPath s g = [g] := by
  simp [directPath, h]

/-- Long distances yield `max 2 (⌊distance⌋ / 15)` waypoints. -/
theorem directPath_len {s g : GPos} (h : ¬distSq s g < 400) :
    (directPath s g).length = max 2 (isqrt (distSq s g).toNat / 15) := by
  simp only [directPath]
  rw [if_neg h, List.length_map, List.length_range]

/-- The direct path always contains at least one waypoint. -/
theorem directPath_len_pos (s g : GPos) : 0 < (directPath s g).length := by
  by_cases h : distSq s g < 400
  · rw [directPath_short h]
    simp
  · rw [directPath_len h]
    have h2 : 2 ≤ max 2 (isqrt (distSq s g).toNat / 15) := le_max_left _ _
    omega

/-- The last waypoint of a long direct path is the goal. -/
theorem directPath_last {s g : GPos} (h : ¬distSq s g < 400) :
    (directPath s g).getLast? = some g := by
  obtain ⟨sx, sy⟩ := s
  obtain ⟨gx, gy⟩ := g
  simp only [directPath]
  rw [if_neg h]
  have h2 : 2 ≤ max 2 (isqrt (distSq (GPos.mk sx sy) (GPos.mk gx gy)).toNat / 15) :=
    le_max_left _ _
  revert h2
  generalize max 2 (isqrt (distSq (GPos.mk sx sy) (GPos.mk gx gy)).toNat / 15) = num
  intro h2
  obtain ⟨m, hm⟩ : ∃ m, num = m + 1 := ⟨num - 1, by omega⟩
  subst hm
  rw [List.range_succ, List.map_append, List.map_cons, List.map_nil,
    List.getLast?_concat]
  have hcast : ((m + 1 : Nat) : Int) = (m : Int) + 1 := by push_cast; ring
  have hnz : ((m : Int) + 1) ≠ 0 := by omega
  rw [hcast, Option.some_inj, GPos.mk.injEq]
  constructor
  · rw [show sx * ((m : Int) + 1) + (gx - sx) * ((m : Int) + 1) = gx * ((m : Int) + 1) by
      ring]
    exact Int.mul_tdiv_cancel _ hnz
  · rw [show sy * ((m : Int) + 1) + (gy - sy) * ((m : Int) + 1) = gy * ((m : Int) + 1) by
      ring]
    exact Int.mul_tdiv_cancel _ hnz

/-- The exploration pattern has exactly twelve waypoints. -/
theorem explorationPath_len (sx sy : Int) : (explorationPath sx sy).length = 12 := by
  simp [explorationPath]

/-- The deduplication fold keeps kept exits pairwise at squared distance at
least 100 apart. -/
theorem dedupExits_aux :
    ∀ (l acc : List GPos), (∀ p ∈ acc, ∀ q ∈ acc, p ≠ q → 100 ≤ distSq p q) →
      ∀ p ∈ l.foldl (fun uniq ex =>
          if uniq.any (fun u => distSq u ex < 100) then uniq else uniq ++ [ex]) acc,
        ∀ q ∈ l.foldl (fun uniq ex =>
            if uniq.any (fun u => distSq u ex < 100) then uniq else uniq ++ [ex]) acc,
          p ≠ q → 100 ≤ distSq p q := by
  intro l
  induction l with
  | nil => intro acc h; simpa using h
  | cons x xs ih =>
    intro acc h
    simp only [List.foldl_cons]
    apply ih
    by_cases hx : acc.any (fun u => distSq u x < 100) = true
    · rw [if_pos hx]; exact h
    · rw [if_neg hx]
      have hx' : ∀ u ∈ acc, ¬distSq u x < 100 := by simpa using hx
      intro p hp q hq hne
      rcases List.mem_append.mp hp with hp1 | hp2 <;>
        rcases List.mem_append.mp hq with hq1 | hq2
      · exact h p hp1 q hq1 hne
      · have hq' : q = x := by simpa using hq2
        subst hq'
        have := hx' p hp1
        omega
      · have hp' : p = x := by simpa using hp2
        subst hp'
        have := hx' q hq1
        rw [distSq_comm]
        omega
      · have hp' : p = x := by simpa using hp2
        have hq' : q = x := by simpa using hq2
        subst hp'; subst hq'
        exact absurd rfl hne

/-- Any two distinct reported zone exits are at squared distance at least
100 apart. -/
theorem findZoneExits_pairwise (entities : List Entity) :
    ∀ p ∈ findZoneExits entities, ∀ q ∈ findZoneExits entities,
      p ≠ q → 100 ≤ distSq p q := by
  have := dedupExits_aux (exitCandidates entities) [] (by simp)
  simpa [findZoneExits, dedupExits] using this

/-- A successful optimal-exit selection needs a non-empty exit list. -/
theorem findOptimalExit_ne_nil {p t : GPos} {l : List GPos}
    (h : findOptimalExit p l = some t) : l.isEmpty = false := by
  cases l with
  | nil => simp [findOptimalExit] at h
  | cons a as => rfl

/-- When an optimal exit was selected and A* is unavailable (empty grid) or
fails, `create_intelligent_path` returns the direct path to that exit. -/
theorem create_eq_direct (d : GPos → GPos → ℚ)
    (pick : List GPos → Option (GPos × List GPos)) (fuel : Nat) (sx sy : Int)
    (terrain : String) (entities : List Entity) (t : GPos)
    (hopt : findOptimalExit ⟨sx, sy⟩ (usedExits entities) = some t)
    (hfail : taParse terrain = [] ∨
      (findAstar d pick fuel (taParse terrain) ⟨sx, sy⟩ t).result = none) :
    createIntelligentPath d pick fuel sx sy terrain entities =
      directPath ⟨sx, sy⟩ t := by
  have hne : (usedExits entities).isEmpty = false := findOptimalExit_ne_nil hopt
  simp only [createIntelligentPath, hne, Bool.false_eq_true, if_false]
  rw [hopt]
  dsimp only
  rcases hfail with h1 | h2
  · have hg : (taParse terrain).isEmpty = true := by rw [h1]; rfl
    rw [if_pos hg]
  · by_cases hg : (taParse terrain).isEmpty = true
    · rw [if_pos hg]
    · rw [if_neg hg, h2]

/-- Claim C1: for every start record with integer `X`/`Y` fields, every
terrain string (including empty or malformed input) and every entity list
(including the empty one), `IntelligentPathfinder.create_intelligent_path`
raises no exception (it is embedded as a total function; every swallowed
exception path is modelled by its handler's fallback value) and returns a
non-empty list of waypoint records — for every cost function, pop order and
iteration bound of the embedded A* search. -/
theorem claim_C1_create_path_total_nonempty
    (d : GPos → GPos → ℚ) (pick : List GPos → Option (GPos × List GPos))
    (fuel : Nat) (sx sy : Int) (terrain : String) (entities : List Entity) :
    0 < (createIntelligentPath d pick fuel sx sy terrain entities).length := by
  simp only [createIntelligentPath]
  by_cases he : (usedExits entities).isEmpty = true
  · rw [if_pos he, explorationPath_len]
    omega
  · rw [if_neg he]
    cases hopt : findOptimalExit ⟨sx, sy⟩ (usedExits entities) with
    | none =>
      rw [explorationPath_len]
      omega
    | some t =>
      dsimp only
      by_cases hg : (taParse terrain).isEmpty = true
      · rw [if_pos hg]
        exact directPath_len_pos _ _
      · rw [if_neg hg]
        cases har : (findAstar d pick fuel (taParse terrain) ⟨sx, sy⟩ t).result with
        | none => exact directPath_len_pos _ _
        | some p =>
          dsimp only
          by_cases hpe : p.isEmpty = true
          · rw [if_pos hpe]
            exact directPath_len_pos _ _
          · rw [if_neg hpe]
            exact List.length_pos.mpr (List.isEmpty_eq_false.mp
              (Bool.not_eq_true _ ▸ hpe))

/-- Witness for C1 at a concrete input. -/
theorem claim_C1_witness :
    0 < (createIntelligentPath dZero pickFirst 5 0 0 "" []).length :=
  claim_C1_create_path_total_nonempty dZero pickFirst 5 0 0 "" []

/-- Counterexample to claim C2 as stated: `PathfindingEngine.find_path` (one
of the two cited A* implementations) pops the start node of the grid
`"51 49 51"` at squared distance 4 < 25 from the goal, yet exhausts its open
set and returns no path — its goal test is exact equality, not the radius-5
proximity test. -/
theorem claim_C2_counterexample :
    (findPath dZero pickFirst 5 (tgParse "51 49 51") ⟨0, 0⟩ ⟨2, 0⟩).result = none ∧
    (⟨0, 0⟩ : GPos) ∈ (findPath dZero pickFirst 5 (tgParse "51 49 51") ⟨0, 0⟩ ⟨2, 0⟩).popped ∧
    distSq ⟨0, 0⟩ ⟨2, 0⟩ < 25 ∧
    tgIsWalkable (tgParse "51 49 51") 0 0 = true ∧
    tgIsWalkable (tgParse "51 49 51") 2 0 = true := by
  decide

/-- Claim C2 (amended): restricted to `IntelligentPathfinder._find_path_astar`
the claim holds — for every terrain grid, start, goal, cost function, pop
order and iteration bound, the search succeeds exactly when it pops a node
within Euclidean distance 5 of the goal (squared distance `< 25`), and every
returned path is non-empty, starts at the start position and ends within
distance 5 of the goal; exhausting the open set without such a pop yields no
path (the `result.isSome` ↔ direction covers it). -/
theorem claim_C2_astar_goal_radius
    (d : GPos → GPos → ℚ) (pick : List GPos → Option (GPos × List GPos))
    (fuel : Nat) (grid : List (List Int)) (s goal : GPos) :
    ((findAstar d pick fuel grid s goal).result.isSome = true ↔
      ∃ q ∈ (findAstar d pick fuel grid s goal).popped, distSq q goal < 25) ∧
    (∀ p, (findAstar d pick fuel grid s goal).result = some p →
      p ≠ [] ∧ p.head? = some s ∧
        ∃ q, p.getLast? = some q ∧ distSq q goal < 25) := by
  constructor
  · exact astarLoop_success_iff d pick grid goal fuel [s] [] _
  · intro p hp
    refine astarLoop_path_wf d pick grid goal s fuel [s] [] _ ?_ p hp
    intro e he
    have he' : e = (s, ⟨0, d s goal, [s]⟩) := by simpa using he
    rw [he']
    exact ⟨by simp, by simp, by simp⟩

/-- Witness for the amended C2: on the all-walkable 3×3 grid the start is
already within the goal radius, so the first pop succeeds with the
single-node path. -/
theorem claim_C2_witness :
    (findAstar dZero pickFirst 9 (taParse "50 50 50\n50 50 50\n50 50 50")
        ⟨0, 0⟩ ⟨2, 2⟩).result = some [⟨0, 0⟩] ∧
    ([(⟨0, 0⟩ : GPos)] ≠ []) ∧
    ([(⟨0, 0⟩ : GPos)].head? = some ⟨0, 0⟩) ∧
    (∃ q, [(⟨0, 0⟩ : GPos)].getLast? = some q ∧ distSq q ⟨2, 2⟩ < 25) := by
  have h := claim_C2_astar_goal_radius dZero pickFirst 9
    (taParse "50 50 50\n50 50 50\n50 50 50") ⟨0, 0⟩ ⟨2, 2⟩
  have hr : (findAstar dZero pickFirst 9 (taParse "50 50 50\n50 50 50\n50 50 50")
      ⟨0, 0⟩ ⟨2, 2⟩).result = some [⟨0, 0⟩] := by decide
  have h2 := h.2 [⟨0, 0⟩] hr
  exact ⟨hr, h2.1, h2.2.1, h2.2.2⟩

/-- Claim C3: on every in-bounds cell with value `v`, the two walkability
predicates evaluate to `v == 51` (`TerrainGrid.is_walkable`) and `v >= 50`
(`TerrainAnalyzer.is_walkable`); they agree for `v < 50` and for `v = 51`,
and disagree for `v = 50` and for every `v > 51`. -/
theorem claim_C3_walkability_thresholds_disagree
    (g : List (List Int)) (x y v : Int)
    (hvalid : isValidPosition g x y = true) (hcell : cellAt g x y = some v) :
    tgIsWalkable g x y = decide (v = 51) ∧
    taIsWalkable g x y = decide (50 ≤ v) ∧
    (v < 50 → tgIsWalkable g x y = taIsWalkable g x y) ∧
    (v = 51 → tgIsWalkable g x y = taIsWalkable g x y) ∧
    ((v = 50 ∨ 51 < v) → tgIsWalkable g x y ≠ taIsWalkable g x y) := by
  have htg : tgIsWalkable g x y = decide (v = 51) := by
    unfold tgIsWalkable
    rw [if_pos hvalid, hcell]
  have hta : taIsWalkable g x y = decide (50 ≤ v) := by
    unfold taIsWalkable
    rw [if_pos hvalid, hcell]
  refine ⟨htg, hta, ?_, ?_, ?_⟩
  · intro hv
    rw [htg, hta]
    have h1 : ¬v = 51 := by omega
    have h2 : ¬50 ≤ v := by omega
    simp [h1, h2]
  · intro hv
    rw [htg, hta]
    subst hv
    decide
  · intro hv
    rw [htg, hta]
    have h1 : ¬v = 51 := by omega
    have h2 : 50 ≤ v := by omega
    simp [h1, h2]

/-- Witness for C3 at the boundary value 50 (disagreement) on a concrete
grid. -/
theorem claim_C3_witness :
    tgIsWalkable [[50]] 0 0 = decide ((50 : Int) = 51) ∧
    taIsWalkable [[50]] 0 0 = decide ((50 : Int) ≤ 50) ∧
    tgIsWalkable [[50]] 0 0 ≠ taIsWalkable [[50]] 0 0 := by
  have h := claim_C3_walkability_thresholds_disagree [[50]] 0 0 50
    (by decide) (by decide)
  exact ⟨h.1, h.2.1, h.2.2.2.2 (Or.inl rfl)⟩

/-- Claim C4: whenever a zone exit has been selected but A* is unavailable
(empty terrain grid) or returns no path, the result is the direct path:
a single waypoint equal to the goal when the squared start-goal distance is
below 400 (distance < 20), and otherwise `max 2 (⌊distance⌋ / 15)` waypoints
interpolated along the straight line whose last waypoint equals the goal; in
particular the empty-terrain scenario with one `Metadata/Transition/Waypoint1`
entity at (100, 50) and the player at (0, 0) ends at (100, 50). -/
theorem claim_C4_direct_path_fallback
    (d : GPos → GPos → ℚ) (pick : List GPos → Option (GPos × List GPos))
    (fuel : Nat) (sx sy : Int) (terrain : String) (entities : List Entity)
    (t : GPos)
    (hopt : findOptimalExit ⟨sx, sy⟩ (usedExits entities) = some t)
    (hfail : taParse terrain = [] ∨
      (findAstar d pick fuel (taParse terrain) ⟨sx, sy⟩ t).result = none) :
    createIntelligentPath d pick fuel sx sy terrain entities =
        directPath ⟨sx, sy⟩ t ∧
    (distSq ⟨sx, sy⟩ t < 400 → directPath ⟨sx, sy⟩ t = [t]) ∧
    (¬distSq ⟨sx, sy⟩ t < 400 →
      (directPath ⟨sx, sy⟩ t).length =
          max 2 (Nat.sqrt (distSq ⟨sx, sy⟩ t).toNat / 15) ∧
      (directPath ⟨sx, sy⟩ t).getLast? = some t) ∧
    (createIntelligentPath d pick fuel 0 0 ""
        [⟨"Metadata/Transition/Waypoint1".data, 0, some ⟨100, 50⟩, none⟩]).getLast?
      = some ⟨100, 50⟩ := by
  refine ⟨create_eq_direct d pick fuel sx sy terrain entities t hopt hfail,
    fun h => directPath_short h, fun h =>
    ⟨by rw [directPath_len h, isqrt_eq_sqrt], directPath_last h⟩, ?_⟩
  rw [create_eq_direct d pick fuel 0 0 ""
    [⟨"Metadata/Transition/Waypoint1".data, 0, some ⟨100, 50⟩, none⟩] ⟨100, 50⟩
    (by decide) (Or.inl (by decide))]
  decide

/-- Witness for C4: the empty-terrain waypoint scenario. -/
theorem claim_C4_witness :
    createIntelligentPath dZero pickFirst 5 0 0 ""
        [⟨"Metadata/Transition/Waypoint1".data, 0, some ⟨100, 50⟩, none⟩]
      = directPath ⟨0, 0⟩ ⟨100, 50⟩ ∧
    (directPath ⟨0, 0⟩ ⟨100, 50⟩).getLast? = some ⟨100, 50⟩ := by
  have h := claim_C4_direct_path_fallback dZero pickFirst 5 0 0 ""
    [⟨"Metadata/Transition/Waypoint1".data, 0, some ⟨100, 50⟩, none⟩] ⟨100, 50⟩
    (by decide) (Or.inl (by decide))
  exact ⟨h.1, (h.2.2.1 (by decide)).2⟩

/-- Claim C5: when neither the primary exit classification nor the extended
keyword search finds any exit, `create_intelligent_path` returns exactly the
twelve fixed offsets from the start, independent of the terrain contents and
of the A* parameters. -/
theorem claim_C5_exploration_fallback
    (d : GPos → GPos → ℚ) (pick : List GPos → Option (GPos × List GPos))
    (fuel : Nat) (sx sy : Int) (terrain : String) (entities : List Entity)
    (h1 : findZoneExits entities = [])
    (h2 : extendedExitSearch entities = []) :
    createIntelligentPath d pick fuel sx sy terrain entities =
      [⟨sx + 60, sy⟩, ⟨sx + 120, sy⟩, ⟨sx + 180, sy⟩,
       ⟨sx + 180, sy + 60⟩, ⟨sx + 120, sy + 60⟩, ⟨sx + 60, sy + 60⟩,
       ⟨sx + 60, sy - 60⟩, ⟨sx + 120, sy - 60⟩, ⟨sx + 180, sy - 60⟩,
       ⟨sx + 240, sy⟩, ⟨sx + 300, sy⟩, ⟨sx + 360, sy⟩] := by
  have hu : usedExits entities = [] := by
    unfold usedExits
    rw [h1]
    simpa using h2
  simp only [createIntelligentPath, hu]
  rfl

/-- Witness for C5: empty entity list, non-empty terrain, start (10, 10). -/
theorem claim_C5_witness :
    createIntelligentPath dZero pickFirst 3 10 10 "50 50\n50 50" [] =
      [⟨10 + 60, 10⟩, ⟨10 + 120, 10⟩, ⟨10 + 180, 10⟩,
       ⟨10 + 180, 10 + 60⟩, ⟨10 + 120, 10 + 60⟩, ⟨10 + 60, 10 + 60⟩,
       ⟨10 + 60, 10 - 60⟩, ⟨10 + 120, 10 - 60⟩, ⟨10 + 180, 10 - 60⟩,
       ⟨10 + 240, 10⟩, ⟨10 + 300, 10⟩, ⟨10 + 360, 10⟩] :=
  claim_C5_exploration_fallback dZero pickFirst 3 10 10 "50 50\n50 50" []
    (by decide) (by decide)

/-- Claim C6: any two distinct positions returned by
`ZoneAnalyzer.find_zone_exits` are at Euclidean distance at least 10 (squared
distance at least 100) from each other, the first-encountered candidate being
kept; in particular two `Door` entities 5 units apart (at (0,0) and (3,4))
yield exactly the one first exit. -/
theorem claim_C6_exit_dedup
    (entities : List Entity) (p q : GPos)
    (hp : p ∈ findZoneExits entities) (hq : q ∈ findZoneExits entities)
    (hne : p ≠ q) :
    100 ≤ distSq p q ∧
    findZoneExits
        [⟨"Metadata/Door1".data, 0, some ⟨0, 0⟩, none⟩,
         ⟨"Metadata/Door2".data, 0, some ⟨3, 4⟩, none⟩] = [⟨0, 0⟩] :=
  ⟨findZoneExits_pairwise entities p hp q hq hne, by decide⟩

/-- Witness for C6: two doors 20 units apart are both kept and are at
squared distance 400 ≥ 100. -/
theorem claim_C6_witness :
    100 ≤ distSq ⟨0, 0⟩ ⟨20, 0⟩ ∧
    findZoneExits
        [⟨"Metadata/Door1".data, 0, some ⟨0, 0⟩, none⟩,
         ⟨"Metadata/Door2".data, 0, some ⟨3, 4⟩, none⟩] = [⟨0, 0⟩] :=
  claim_C6_exit_dedup
    [⟨"A/Door".data, 0, some ⟨0, 0⟩, none⟩, ⟨"B/Door".data, 0, some ⟨20, 0⟩, none⟩]
    ⟨0, 0⟩ ⟨20, 0⟩ (by decide) (by decide) (by decide)

/-- Claim C7: on every terrain grid (empty and ragged grids included), both
`is_walkable` implementations return `false` for every out-of-bounds query —
in particular for `x = -1`, `y = -1`, `x = width`, `y = height` — and raise
no exception (the embedded functions are total; the source's indexing
`except` handler is the `none` branch of `cellAt`). -/
theorem claim_C7_out_of_bounds_not_walkable
    (g : List (List Int)) (x y : Int)
    (h : ¬(0 ≤ x ∧ x < (gridWidth g : Int) ∧ 0 ≤ y ∧ y < (gridHeight g : Int))) :
    tgIsWalkable g x y = false ∧ taIsWalkable g x y = false := by
  have hv : isValidPosition g x y = false := by
    unfold isValidPosition
    exact decide_eq_false_iff_not.mpr h
  constructor
  · unfold tgIsWalkable
    simp [hv]
  · unfold taIsWalkable
    simp [hv]

/-- Witness for C7 on a ragged parsed grid, at `x = -1`. -/
theorem claim_C7_witness :
    tgIsWalkable (tgParse "50 50\n50") (-1) 0 = false ∧
    taIsWalkable (tgParse "50 50\n50") (-1) 0 = false :=
  claim_C7_out_of_bounds_not_walkable (tgParse "50 50\n50") (-1) 0 (by decide)

/-- Counterexample to claim C8 as stated: with no window and the default
flags, `convert_grid_to_screen(600, 300)` returns `(1110, 540)` — its Y
coordinate equals the window-center Y 540 rather than lying below it (the
grid Y 300 coincides with the reference Y 300, so the inversion has nothing
to flip). -/
theorem claim_C8_counterexample :
    convertGridToScreen initCoordState 600 300 = (1110, 540) ∧
    ¬(convertGridToScreen initCoordState 600 300).2 < 540 := by
  decide

/-- Claim C8 (amended): with no game window and the default flags
(`invert_x = false`, `invert_y = true`, `swap_xy = false`),
`convert_grid_to_screen(600, 300)` returns `(1110, 540)`: a screen point
whose Y coordinate equals the window-center Y (540), with both coordinates
inside the clamped bounds `[100, 1820] × [100, 980]`. -/
theorem claim_C8_conversion_at_600_300 :
    convertGridToScreen initCoordState 600 300 = (1110, 540) ∧
    (convertGridToScreen initCoordState 600 300).2 = 540 ∧
    100 ≤ (convertGridToScreen initCoordState 600 300).1 ∧
    (convertGridToScreen initCoordState 600 300).1 ≤ 1820 ∧
    100 ≤ (convertGridToScreen initCoordState 600 300).2 ∧
    (convertGridToScreen initCoordState 600 300).2 ≤ 980 := by
  decide

/-- Claim C9: with all three flags false, `convert_grid_to_screen` is
monotone non-decreasing along each axis (for every window calibration with a
non-negative scale, as produced by `set_game_window` on sane window sizes),
and setting `invert_y` makes the screen Y monotone non-increasing in the
grid Y. -/
theorem claim_C9_conversion_monotone
    (win : Option Window) (scale : ℚ) (hscale : 0 ≤ scale)
    (gx₁ gx₂ gy₁ gy₂ : Int) (hx : gx₁ ≤ gx₂) (hy : gy₁ ≤ gy₂) :
    (convertGridToScreen ⟨win, scale, false, false, false⟩ gx₁ gy₁).1 ≤
        (convertGridToScreen ⟨win, scale, false, false, false⟩ gx₂ gy₁).1 ∧
    (convertGridToScreen ⟨win, scale, false, false, false⟩ gx₁ gy₁).2 ≤
        (convertGridToScreen ⟨win, scale, false, false, false⟩ gx₁ gy₂).2 ∧
    (convertGridToScreen ⟨win, scale, false, true, false⟩ gx₁ gy₂).2 ≤
        (convertGridToScreen ⟨win, scale, false, true, false⟩ gx₁ gy₁).2 := by
  cases win with
  | none =>
    refine ⟨?_, ?_, ?_⟩
    · show max 100 (min ((1920 + 3 * (gx₁ - 500)).tdiv 2) 1820) ≤
        max 100 (min ((1920 + 3 * (gx₂ - 500)).tdiv 2) 1820)
      exact clamp_mono (tdiv_two_mono (by omega))
    · show max 100 (min ((1080 + 3 * (gy₁ - 300)).tdiv 2) 980) ≤
        max 100 (min ((1080 + 3 * (gy₂ - 300)).tdiv 2) 980)
      exact clamp_mono (tdiv_two_mono (by omega))
    · show max 100 (min ((1080 + -(3 * (gy₂ - 300))).tdiv 2) 980) ≤
        max 100 (min ((1080 + -(3 * (gy₁ - 300))).tdiv 2) 980)
      exact clamp_mono (tdiv_two_mono (by omega))
  | some w =>
    refine ⟨?_, ?_, ?_⟩
    · show max 50 (min (pyInt (((w.width.fdiv 2 : Int) : ℚ) + (gx₁ : ℚ) * scale))
          (w.width - 50)) ≤
        max 50 (min (pyInt (((w.width.fdiv 2 : Int) : ℚ) + (gx₂ : ℚ) * scale))
          (w.width - 50))
      exact clamp_mono (pyInt_mono (add_le_add_left
        (mul_le_mul_of_nonneg_right (by exact_mod_cast hx) hscale) _))
    · show max 50 (min (pyInt (((w.height.fdiv 2 : Int) : ℚ) + (gy₁ : ℚ) * scale))
          (w.height - 50)) ≤
        max 50 (min (pyInt (((w.height.fdiv 2 : Int) : ℚ) + (gy₂ : ℚ) * scale))
          (w.height - 50))
      exact clamp_mono (pyInt_mono (add_le_add_left
        (mul_le_mul_of_nonneg_right (by exact_mod_cast hy) hscale) _))
    · show max 50 (min (pyInt (((w.height.fdiv 2 : Int) : ℚ) + -((gy₂ : ℚ) * scale)))
          (w.height - 50)) ≤
        max 50 (min (pyInt (((w.height.fdiv 2 : Int) : ℚ) + -((gy₁ : ℚ) * scale)))
          (w.height - 50))
      exact clamp_mono (pyInt_mono (add_le_add_left
        (neg_le_neg (mul_le_mul_of_nonneg_right (by exact_mod_cast hy) hscale)) _))

/-- Witness for C9 at concrete inputs in the windowless calibration. -/
theorem claim_C9_witness :
    (convertGridToScreen ⟨none, 1, false, false, false⟩ 0 0).1 ≤
        (convertGridToScreen ⟨none, 1, false, false, false⟩ 5 0).1 ∧
    (convertGridToScreen ⟨none, 1, false, true, false⟩ 0 5).2 ≤
        (convertGridToScreen ⟨none, 1, false, true, false⟩ 0 0).2 := by
  have h := claim_C9_conversion_monotone none 1 (by norm_num) 0 5 0 5
    (by norm_num) (by norm_num)
  exact ⟨h.1, h.2.2⟩

/-- Claim C10: for any fixed calibration, `get_entity_click_position` (both
implementations) depends only on the entity's `GridPosition`: two entities
agreeing on it produce equal results whatever their screen-position and
other fields; an entity with no (or empty) `GridPosition` yields the screen
center. -/
theorem claim_C10_click_position_grid_only
    (st : CoordState) (pst : PlainCoordState) (e₁ e₂ : Entity)
    (hgp : e₁.gridPos = e₂.gridPos) :
    getEntityClickPosition st e₁ = getEntityClickPosition st e₂ ∧
    plainGetEntityClickPosition pst e₁ = plainGetEntityClickPosition pst e₂ ∧
    (e₁.gridPos = none →
      getEntityClickPosition st e₁ = getScreenCenter st.gameWindow ∧
      plainGetEntityClickPosition pst e₁ = getScreenCenter pst.gameWindow) := by
  refine ⟨?_, ?_, ?_⟩
  · unfold getEntityClickPosition
    rw [hgp]
  · unfold plainGetEntityClickPosition
    rw [hgp]
  · intro hnone
    unfold getEntityClickPosition plainGetEntityClickPosition
    rw [hnone]
    exact ⟨rfl, rfl⟩

/-- Witness for C10: two entities sharing a grid position but with different
paths, types and screen positions produce the same click point, and an
entity without grid position yields the screen center. -/
theorem claim_C10_witness :
    getEntityClickPosition initCoordState
        ⟨"A".data, 1, some ⟨5, 5⟩, some ⟨99999, 99999⟩⟩ =
      getEntityClickPosition initCoordState ⟨"B".data, 2, some ⟨5, 5⟩, none⟩ ∧
    getEntityClickPosition initCoordState ⟨"C".data, 0, none, some ⟨3, 3⟩⟩ =
      getScreenCenter none := by
  have h1 := claim_C10_click_position_grid_only initCoordState ⟨none⟩
    ⟨"A".data, 1, some ⟨5, 5⟩, some ⟨99999, 99999⟩⟩
    ⟨"B".data, 2, some ⟨5, 5⟩, none⟩ rfl
  have h2 := claim_C10_click_position_grid_only initCoordState ⟨none⟩
    ⟨"C".data, 0, none, some ⟨3, 3⟩⟩ ⟨"C".data, 0, none, none⟩ rfl
  exact ⟨h1.1, (h2.2.2 rfl).1⟩
